import Mathlib

/-!
Shallow embedding of the schema-retrieval subsystem of the textToSql
repository (files `utils/vector_search.py` and `services/schema_service.py`),
together with theorems settling the frozen claims about it.

Modelling conventions:
* Python strings are Lean `String`s; `a in b` (substring test) is list-infix
  of the character lists; `str.lower()` is `pyLower` (character-wise
  `Char.toLower`); `str.split()` is `pyWords` (split on whitespace runs,
  discarding empty pieces).
* Python `list[:k]` with a possibly negative `k` is `pySlice`.
* Similarity scores are `ℚ` (the code only ever compares scores and converts
  small integers to float, both of which are exact).
* `list.sort(key=score, reverse=True)` is a stable sort by descending
  score (`List.insertionSort` with the relation "score of the left argument
  is at least score of the right"; a stable sort's output is uniquely
  determined by the key order, so this coincides with Python's sort).
* FAISS and the sentence-transformer model are external: a query-time call
  `encode(query)` + `index.search(vec, k)` is an oracle
  `vecQuery : String → Int → Except Unit (List (Int × ℚ))` returning the
  neighbor (index, score) pairs, `.error` meaning the call raised.
  An in-memory FAISS index is represented by its vector count `ntotal`.
* On-disk artifacts are `Option` values: `none` means the file is missing,
  unreadable or undeserializable (the code treats all of these alike by
  catching the exception).
-/

/-- Python's substring test `needle in hay`. -/
def substr (needle hay : String) : Bool :=
  decide (needle.data <:+: hay.data)

/-- Python's `s.lower()` (on the ASCII letters the catalog uses). -/
def pyLower (s : String) : String := ⟨s.data.map Char.toLower⟩

/-- Worker for `pyWords`: accumulate the current word (reversed) while
scanning the characters. -/
def pyWordsAux : List Char → List Char → List String
  | acc, [] => if acc.isEmpty then [] else [String.mk acc.reverse]
  | acc, c :: cs =>
    if c.isWhitespace then
      (if acc.isEmpty then [] else [String.mk acc.reverse]) ++ pyWordsAux [] cs
    else pyWordsAux (c :: acc) cs

/-- Python's `s.split()`: split on whitespace runs, discarding empty
pieces. -/
def pyWords (s : String) : List String := pyWordsAux [] s.data

/-- Python's `xs[:k]` for an integer `k` (negative `k` keeps all but the
last `|k|` elements). -/
def pySlice {α : Type} (xs : List α) (k : Int) : List α :=
  if 0 ≤ k then xs.take k.toNat else xs.take ((xs.length : Int) + k).toNat

/-- Python's `xs[i]` for a non-negative in-bounds check made explicit:
raises (`.error`) when out of bounds. -/
def pyGet {α : Type} (xs : List α) (i : Nat) : Except Unit α :=
  if h : i < xs.length then .ok (xs.get ⟨i, h⟩) else .error ()

/-- The result rows produced by both search paths
(`{"table_name": ..., "similarity_score": ..., "description": ...}`). -/
structure SearchHit where
  table_name : String
  similarity_score : ℚ
  description : String
deriving DecidableEq, Repr

/-- `results.sort(key=lambda x: x["similarity_score"], reverse=True)`:
stable sort by similarity score, descending. -/
def sortHits (rs : List SearchHit) : List SearchHit :=
  rs.insertionSort (fun a b => b.similarity_score ≤ a.similarity_score)

/-- One iteration of the `for i, table_name in enumerate(self.table_names)`
loop of `VectorSearch.keyword_search`: the scored row for table number `i`,
or `none` when the score is 0 and the row is skipped. -/
def kwRow (data : List String) (ql : String) (i : Nat) (name : String) :
    Option SearchHit :=
  let tl := pyLower name
  let base : Nat := if substr tl ql || substr ql tl then 10 else 0
  let score : Nat :=
    if i < data.length then
      let dl := pyLower (data.getD i "")
      (pyWords ql).foldl
        (fun s w => if w.length > 2 && substr w dl then s + 3 else s) base
    else base
  if score > 0 then
    some ⟨name, (score : ℚ),
      if i < data.length then data.getD i "" else "Table " ++ name⟩
  else none

/-- The whole `for i, table_name in enumerate(...)` loop, accumulating the
rows whose score is positive, in table order. -/
def kwLoop (data : List String) (ql : String) : Nat → List String → List SearchHit
  | _, [] => []
  | i, name :: rest =>
    match kwRow data ql i name with
    | some h => h :: kwLoop data ql (i + 1) rest
    | none => kwLoop data ql (i + 1) rest

/-- `VectorSearch.keyword_search(query, top_k)` (the fallback path), over a
catalog given by `names` and `data`. -/
def keyword_search (names data : List String) (query : String) (top_k : Int) :
    List SearchHit :=
  pySlice (sortHits (kwLoop data (pyLower query) 0 names)) top_k

/-- The result-building loop of `VectorSearch.search` over the neighbor
pairs `(idx, score)` returned by the index: keep a neighbor iff
`idx >= 0 and idx < len(table_names) and score > 0`; the description access
`table_data[idx]` is unguarded in the code, so it can raise when
`table_data` is shorter than `table_names`. -/
def buildHits (names data : List String) :
    List (Int × ℚ) → Except Unit (List SearchHit)
  | [] => .ok []
  | (idx, s) :: rest =>
    if 0 ≤ idx ∧ idx < (names.length : Int) ∧ 0 < s then
      match pyGet data idx.toNat with
      | .error _ => .error ()
      | .ok desc =>
        match buildHits names data rest with
        | .error _ => .error ()
        | .ok hs => .ok (⟨names.getD idx.toNat "", s, desc⟩ :: hs)
    else buildHits names data rest

/-- The in-memory state of a `VectorSearch` object: the catalog lists, the
FAISS index (`none` = `self.index is None`, otherwise its `ntotal`), and the
oracle for `self.embedder.encode([query])` followed by
`self.index.search(vec, k)`. -/
structure Engine where
  table_names : List String
  table_data : List String
  index : Option Nat
  vecQuery : String → Int → Except Unit (List (Int × ℚ))

/-- The body of the `try:` block of `VectorSearch.search`: query the index
for `min(top_k, ntotal)` neighbors and build the surviving hits; any raise
inside becomes `.error`. -/
def vecAttempt (e : Engine) (ntotal : Nat) (query : String) (top_k : Int) :
    Except Unit (List SearchHit) :=
  match e.vecQuery query (min top_k (ntotal : Int)) with
  | .error _ => .error ()
  | .ok nbrs => buildHits e.table_names e.table_data nbrs

/-- `VectorSearch.search(query, top_k)`: vector path when the index exists
and is non-empty, falling back to `keyword_search` when the vector path
raises or yields no hit. -/
def search (e : Engine) (query : String) (top_k : Int) : List SearchHit :=
  match e.index with
  | some n =>
    if 0 < n then
      match vecAttempt e n query top_k with
      | .ok hits =>
        let sorted := sortHits hits
        if sorted.isEmpty then keyword_search e.table_names e.table_data query top_k
        else sorted
      | .error _ => keyword_search e.table_names e.table_data query top_k
    else keyword_search e.table_names e.table_data query top_k
  | none => keyword_search e.table_names e.table_data query top_k

/-- Exception-level semantics of one `keyword_search` loop iteration: every
list subscript of the Python code (`self.table_data[i]`, twice, each behind
an `i < len(self.table_data)` guard) is performed through `pyGet`, so a raise
would surface as `.error`. -/
def kwRowExc (data : List String) (ql : String) (i : Nat) (name : String) :
    Except Unit (Option SearchHit) := do
  let tl := pyLower name
  let base : Nat := if substr tl ql || substr ql tl then 10 else 0
  let score : Nat ←
    if i < data.length then do
      let d ← pyGet data i
      let dl := pyLower d
      pure ((pyWords ql).foldl
        (fun s w => if w.length > 2 && substr w dl then s + 3 else s) base)
    else pure base
  if score > 0 then do
    let desc ← if i < data.length then pyGet data i else pure ("Table " ++ name)
    pure (some ⟨name, (score : ℚ), desc⟩)
  else pure none

/-- Exception-level semantics of the whole `keyword_search` loop. -/
def kwLoopExc (data : List String) (ql : String) :
    Nat → List String → Except Unit (List SearchHit)
  | _, [] => .ok []
  | i, name :: rest => do
    let row ← kwRowExc data ql i name
    let tail ← kwLoopExc data ql (i + 1) rest
    match row with
    | some h => pure (h :: tail)
    | none => pure tail

/-- Exception-level semantics of `keyword_search`. -/
def keyword_search_exc (names data : List String) (query : String)
    (top_k : Int) : Except Unit (List SearchHit) := do
  let rows ← kwLoopExc data (pyLower query) 0 names
  pure (pySlice (sortHits rows) top_k)

/-- Exception-level semantics of `search`: the `try`/`except` catches any
raise of the vector path; the fallback call sits outside the `try`, so a
raise there would propagate to the caller. -/
def search_exc (e : Engine) (query : String) (top_k : Int) :
    Except Unit (List SearchHit) :=
  match e.index with
  | some n =>
    if 0 < n then
      match vecAttempt e n query top_k with
      | .ok hits =>
        let sorted := sortHits hits
        if sorted.isEmpty then keyword_search_exc e.table_names e.table_data query top_k
        else .ok sorted
      | .error _ => keyword_search_exc e.table_names e.table_data query top_k
    else keyword_search_exc e.table_names e.table_data query top_k
  | none => keyword_search_exc e.table_names e.table_data query top_k

/-- One column record of the raw schema metadata
(`{column_name, data_type, nullable}`). -/
structure ColumnMeta where
  column_name : String
  data_type : String
  nullable : String
deriving DecidableEq, Repr

/-- The raw schema mapping `{table_name -> columns}`; a Python dict
iterates in insertion order, so it is a list of pairs. -/
abbrev RawSchema := List (String × List ColumnMeta)

/-- The per-column rendering of `SchemaService.load_schema_data`:
`f"{col['column_name']} ({col['data_type']}, {'NULL' if col['nullable'] == 'Y' else 'NOT NULL'})"`. -/
def columnLine (col : ColumnMeta) : String :=
  col.column_name ++ " (" ++ col.data_type ++ ", " ++
    (if col.nullable = "Y" then "NULL" else "NOT NULL") ++ ")"

/-- The per-table rendering:
`f"Table {table_name} with columns: {', '.join(column_descriptions)}"`. -/
def tableText (name : String) (cols : List ColumnMeta) : String :=
  "Table " ++ name ++ " with columns: " ++
    String.intercalate ", " (cols.map columnLine)

/-- The catalog-building loop of `SchemaService.load_schema_data`: starting
from empty lists, append each table's name to `table_names` and its rendered
description to `table_data`. -/
def buildSnapshot (schema : RawSchema) : List String × List String :=
  schema.foldl
    (fun acc t => (acc.1 ++ [t.1], acc.2 ++ [tableText t.1 t.2]))
    ([], [])

/-- The three on-disk artifacts. `indexFile` is the FAISS index file
abstracted to its vector count (`none` = missing or unreadable); the two
sidecars are the JSON lists they hold (`none` = missing or unreadable). -/
structure Disk where
  indexFile : Option Nat
  namesFile : Option (List String)
  descFile : Option (List String)
deriving DecidableEq, Repr

/-- Python's `set(a) == set(b)` on lists of strings. -/
def setEq (a b : List String) : Bool :=
  a.all (fun x => b.contains x) && b.all (fun x => a.contains x)

/-- `SchemaService._is_index_valid`: all three files must exist and be
readable, the persisted names must have the same length as and be
set-equal to the current names, the persisted descriptions must equal the
current descriptions element-for-element, and the persisted index's
`ntotal` must equal the current table count; any failure gives `False`. -/
def is_index_valid (d : Disk) (names data : List String) : Bool :=
  match d.indexFile, d.namesFile, d.descFile with
  | some n, some en, some ed =>
    if en.length ≠ names.length then false
    else if ¬ (setEq en names = true) then false
    else if ed ≠ data then false
    else n = names.length
  | _, _, _ => false

/-- The outcome of one `SchemaService.load_schema_data` call: the disk
afterwards, the in-memory index (`none` = `self.index is None`), the
in-memory catalog lists, and whether the `build_index` branch ran
(`rebuilt = false` means the index file was reloaded as-is). -/
structure LoadResult where
  disk : Disk
  index : Option Nat
  table_names : List String
  table_data : List String
  rebuilt : Bool
deriving DecidableEq, Repr

/-- `SchemaService.load_schema_data(schema_json)` acting on disk state `d`:
rebuild the catalog lists; reload the index file if `_is_index_valid`,
otherwise run `build_index` (which, for a non-empty catalog, embeds the
descriptions, builds a flat index of `len(table_data)` vectors and writes
the index file; for an empty catalog it sets `self.index = None` and
returns without writing); finally write both sidecar files. -/
def load_schema_data (schema : RawSchema) (d : Disk) : LoadResult :=
  let names := (buildSnapshot schema).1
  let data := (buildSnapshot schema).2
  if is_index_valid d names data then
    { disk := { d with namesFile := some names, descFile := some data }
      index := d.indexFile
      table_names := names, table_data := data, rebuilt := false }
  else if data = [] then
    { disk := { d with namesFile := some names, descFile := some data }
      index := none
      table_names := names, table_data := data, rebuilt := true }
  else
    { disk := { indexFile := some data.length,
                namesFile := some names, descFile := some data }
      index := some data.length
      table_names := names, table_data := data, rebuilt := true }

/-! ## Spec-side definitions

The following definitions are written from the wording of the spec/claims,
to be compared against the source-derived definitions above. -/

/-- Spec wording of the catalog build: `table_names` is the list of table
names in mapping order, and for each table the description is one line per
column `"<column_name> (<data_type>, NULL|NOT NULL)"` (NULL exactly when the
nullable flag is `'Y'`), joined with `", "` into
`"Table <name> with columns: <c1>, <c2>, ..."`, index-aligned. -/
def snapshotSpec (schema : RawSchema) : List String × List String :=
  (schema.map Prod.fst,
   schema.map (fun t =>
     "Table " ++ t.1 ++ " with columns: " ++
       String.intercalate ", " (t.2.map (fun col =>
         col.column_name ++ " (" ++ col.data_type ++ ", " ++
           (if col.nullable = "Y" then "NULL" else "NOT NULL") ++ ")"))))

/-- Spec wording of the keyword score of one table `(name, desc)` for a
query: 10 if the lower-cased name is a substring of the lower-cased query
or vice versa, plus 3 for every whitespace-split query word longer than 2
characters occurring as a substring of the lower-cased description. -/
def kwScoreSpec (query name desc : String) : Nat :=
  (if substr (pyLower name) (pyLower query) || substr (pyLower query) (pyLower name)
    then 10 else 0) +
  3 * ((pyWords (pyLower query)).countP
        (fun w => w.length > 2 && substr w (pyLower desc)))

/-- Spec wording of the keyword fallback: score every `(name, desc)` pair of
the catalog, drop score-0 tables, sort by score descending, return the first
`topK` as hits whose similarity score is the integer score as a float. -/
def keywordSearchSpec (names data : List String) (query : String)
    (top_k : Int) : List SearchHit :=
  let scored := (names.zip data).filterMap (fun t =>
    let s := kwScoreSpec query t.1 t.2
    if s = 0 then none else some ⟨t.1, (s : ℚ), t.2⟩)
  (sortHits scored).take top_k.toNat

/-- Spec wording of the vector-path hit set: exactly the neighbors whose
index is non-negative and within catalog bounds and whose score is strictly
positive, each mapped to the catalog entry at that index. -/
def vectorHitsSpec (names data : List String) (nbrs : List (Int × ℚ)) :
    List SearchHit :=
  nbrs.filterMap (fun p =>
    if 0 ≤ p.1 ∧ p.1 < (names.length : Int) ∧ 0 < p.2 then
      some ⟨names.getD p.1.toNat "", p.2, data.getD p.1.toNat ""⟩
    else none)

/-- Spec wording of the validity check (claim C1): the index file and both
sidecars exist and are readable, the persisted names equal the candidate's
names as a set, the persisted descriptions equal the candidate's
element-for-element, and the index's vector count equals the candidate's
table count. (No requirement on the length of the persisted name list.) -/
def indexValidSpec (d : Disk) (names data : List String) : Bool :=
  match d.indexFile, d.namesFile, d.descFile with
  | some n, some en, some ed =>
    setEq en names && ed = data && n = names.length
  | _, _, _ => false

/-- All three on-disk artifacts reflect the snapshot `(names, data)`:
this is the "written together" post-state of claim C8. -/
def diskMatches (d : Disk) (names data : List String) : Prop :=
  d.namesFile = some names ∧ d.descFile = some data ∧
    d.indexFile = some names.length

instance (d : Disk) (names data : List String) :
    Decidable (diskMatches d names data) := by
  unfold diskMatches; infer_instance

/-! ## Helper lemmas -/

theorem buildSnapshot_foldl (schema : RawSchema) (a b : List String) :
    schema.foldl
      (fun acc t => (acc.1 ++ [t.1], acc.2 ++ [tableText t.1 t.2])) (a, b) =
    (a ++ schema.map Prod.fst, b ++ schema.map (fun t => tableText t.1 t.2)) := by
  induction schema generalizing a b with
  | nil => simp
  | cons t rest ih => simp [List.foldl_cons, ih]

theorem buildSnapshot_eq (schema : RawSchema) :
    buildSnapshot schema =
      (schema.map Prod.fst, schema.map (fun t => tableText t.1 t.2)) := by
  simpa using buildSnapshot_foldl schema [] []

theorem buildSnapshot_fst_length (schema : RawSchema) :
    (buildSnapshot schema).1.length = schema.length := by
  simp [buildSnapshot_eq]

theorem buildSnapshot_snd_length (schema : RawSchema) :
    (buildSnapshot schema).2.length = schema.length := by
  simp [buildSnapshot_eq]

theorem foldl_add3_countP (ws : List String) (p : String → Bool) (b : Nat) :
    ws.foldl (fun s w => if p w then s + 3 else s) b = b + 3 * ws.countP p := by
  induction ws generalizing b with
  | nil => simp
  | cons w ws ih =>
    by_cases h : p w = true
    · simp [List.foldl_cons, List.countP_cons, h, ih]
      ring
    · simp [List.foldl_cons, List.countP_cons, h, ih]

theorem if_pos_score (s : Nat) (X : SearchHit) :
    (if s > 0 then some X else none) = (if s = 0 then none else some X) := by
  rcases Nat.eq_zero_or_pos s with h | h
  · simp [h]
  · simp [h, h.ne']

theorem kwRow_eq_spec (query name d : String) (dpre drest : List String) :
    kwRow (dpre ++ d :: drest) (pyLower query) dpre.length name =
      (if kwScoreSpec query name d = 0 then none
       else some ⟨name, (kwScoreSpec query name d : ℚ), d⟩) := by
  have hlt : dpre.length < (dpre ++ d :: drest).length := by simp
  have hget : (dpre ++ d :: drest).getD dpre.length "" = d := by
    rw [List.getD_append_right _ _ _ _ (le_refl _)]
    simp
  simp only [kwRow, kwScoreSpec, if_pos hlt, hget,
    foldl_add3_countP (pyWords (pyLower query))
      (fun w => w.length > 2 && substr w (pyLower d))]
  exact if_pos_score _ _

theorem kwLoop_eq_spec (query : String) :
    ∀ (names dpre drest : List String), names.length = drest.length →
    kwLoop (dpre ++ drest) (pyLower query) dpre.length names =
      (names.zip drest).filterMap (fun t =>
        if kwScoreSpec query t.1 t.2 = 0 then none
        else some ⟨t.1, (kwScoreSpec query t.1 t.2 : ℚ), t.2⟩) := by
  intro names
  induction names with
  | nil => intro dpre drest _; simp [kwLoop]
  | cons name names ih =>
    intro dpre drest h
    cases drest with
    | nil => simp at h
    | cons d drest =>
      have hrec := ih (dpre ++ [d]) drest (by simpa using h)
      simp only [List.append_assoc, List.singleton_append,
        List.length_append, List.length_singleton] at hrec
      simp only [kwLoop, kwRow_eq_spec, List.zip_cons_cons, List.filterMap_cons]
      by_cases hz : kwScoreSpec query name d = 0
      · simp [hz, hrec]
      · simp [hz, hrec]

/-- C3: for every catalog and query, the keyword fallback computes exactly
the spec's scoring (10 for a mutual name/query substring match, 3 per
query word longer than two characters occurring in the description),
excludes score-0 tables, sorts by score descending, and returns the first
`topK` hits with the integer score as similarity. Stated for an
index-aligned catalog and a non-negative `topK`. -/
theorem keyword_search_eq_spec (names data : List String) (query : String)
    (top_k : Int) (hlen : names.length = data.length) (hk : 0 ≤ top_k) :
    keyword_search names data query top_k =
      keywordSearchSpec names data query top_k := by
  have h := kwLoop_eq_spec query names [] data hlen
  simp only [List.nil_append, List.length_nil] at h
  unfold keyword_search keywordSearchSpec pySlice
  rw [if_pos hk, h]

theorem keyword_search_eq_spec_witness :
    (["USERS", "ORDERS"] : List String).length =
      (["Table USERS with columns: id (NUMBER, NOT NULL)",
        "Table ORDERS with columns: order_id (NUMBER, NOT NULL)"] :
        List String).length ∧
    (0 : Int) ≤ 5 ∧
    keyword_search ["USERS", "ORDERS"]
        ["Table USERS with columns: id (NUMBER, NOT NULL)",
         "Table ORDERS with columns: order_id (NUMBER, NOT NULL)"]
        "find user email" 5 =
      keywordSearchSpec ["USERS", "ORDERS"]
        ["Table USERS with columns: id (NUMBER, NOT NULL)",
         "Table ORDERS with columns: order_id (NUMBER, NOT NULL)"]
        "find user email" 5 :=
  ⟨by decide, by decide,
    keyword_search_eq_spec _ _ _ _ (by decide) (by decide)⟩

theorem kwRowExc_eq (data : List String) (ql : String) (i : Nat)
    (name : String) :
    kwRowExc data ql i name = .ok (kwRow data ql i name) := by
  by_cases hb : (substr (pyLower name) ql || substr ql (pyLower name)) = true <;>
    by_cases h : i < data.length <;>
      simp [kwRowExc, kwRow, pyGet, h, hb, List.getD_eq_getElem,
        Bind.bind, Except.bind, Pure.pure, Except.pure, apply_ite Except.ok]

theorem kwLoopExc_eq (data : List String) (ql : String) :
    ∀ (i : Nat) (names : List String),
    kwLoopExc data ql i names = .ok (kwLoop data ql i names) := by
  intro i names
  induction names generalizing i with
  | nil => rfl
  | cons name rest ih =>
    cases hrow : kwRow data ql i name with
    | some h =>
      simp [kwLoopExc, kwLoop, kwRowExc_eq, hrow, ih,
        Bind.bind, Except.bind, Pure.pure, Except.pure]
    | none =>
      simp [kwLoopExc, kwLoop, kwRowExc_eq, hrow, ih,
        Bind.bind, Except.bind, Pure.pure, Except.pure]

theorem keyword_search_exc_eq (names data : List String) (query : String)
    (top_k : Int) :
    keyword_search_exc names data query top_k =
      .ok (keyword_search names data query top_k) := by
  simp [keyword_search_exc, keyword_search, kwLoopExc_eq,
    Bind.bind, Except.bind, Pure.pure, Except.pure]

/-- C9: `search` never propagates an exception to its caller: the faithful
exception-level semantics `search_exc` (every Python subscript explicit,
the `try`/`except` catching the vector path, the fallback outside the
`try`) always returns `.ok` of the pure result — vector-path failures
degrade to the keyword fallback and the fallback itself never raises, an
absent match surfacing only as an empty list. -/
theorem search_no_exception (e : Engine) (query : String) (top_k : Int) :
    search_exc e query top_k = .ok (search e query top_k) := by
  unfold search_exc search
  cases e.index with
  | none => exact keyword_search_exc_eq _ _ _ _
  | some n =>
    by_cases hn : 0 < n
    · simp only [if_pos hn]
      cases vecAttempt e n query top_k with
      | error u => exact keyword_search_exc_eq _ _ _ _
      | ok hits =>
        by_cases hs : (sortHits hits).isEmpty
        · simp only [hs, if_pos]
          exact keyword_search_exc_eq _ _ _ _
        · simp [hs]
    · simp only [if_neg hn]
      exact keyword_search_exc_eq _ _ _ _

theorem sortHits_eq_nil_iff (rs : List SearchHit) : sortHits rs = [] ↔ rs = [] := by
  constructor
  · intro h
    have hl := (List.perm_insertionSort
      (fun a b => b.similarity_score ≤ a.similarity_score) rs).length_eq
    rw [sortHits] at h
    rw [h] at hl
    exact List.length_eq_zero.mp hl.symm
  · intro h
    simp [h, sortHits]

theorem search_eq_keyword_of_degraded (e : Engine) (q : String) (k : Int)
    (h : e.index = none ∨ e.index = some 0 ∨
      (∃ n, e.index = some n ∧ vecAttempt e n q k = .error ()) ∨
      (∃ n, e.index = some n ∧ vecAttempt e n q k = .ok [])) :
    search e q k = keyword_search e.table_names e.table_data q k := by
  unfold search
  rcases h with h | h | ⟨n, hn, ha⟩ | ⟨n, hn, ha⟩
  · rw [h]
  · rw [h]
    simp
  · rw [hn]
    by_cases h0 : 0 < n
    · simp [h0, ha]
    · simp [h0]
  · rw [hn]
    by_cases h0 : 0 < n
    · simp [h0, ha, sortHits]
    · simp [h0]

/-- C2: whenever the vector index is absent (`None`) or empty
(`ntotal = 0`), or the vector path raises, or it produces zero hits,
`search` returns exactly the result of the keyword fallback called with the
same query and `topK`. -/
theorem search_degraded_eq_keyword (e : Engine) (q : String) (k : Int)
    (h : e.index = none ∨ e.index = some 0 ∨
      (∃ n, e.index = some n ∧ vecAttempt e n q k = .error ()) ∨
      (∃ n, e.index = some n ∧ vecAttempt e n q k = .ok [])) :
    search e q k = keyword_search e.table_names e.table_data q k :=
  search_eq_keyword_of_degraded e q k h

/-- A `VectorSearch` state whose index was never built. -/
def engC2 : Engine :=
  ⟨["EMP"], ["Table EMP with columns: "], none, fun _ _ => .error ()⟩

theorem search_degraded_eq_keyword_witness :
    (engC2.index = none ∨ engC2.index = some 0 ∨
      (∃ n, engC2.index = some n ∧ vecAttempt engC2 n "pay" 5 = .error ()) ∨
      (∃ n, engC2.index = some n ∧ vecAttempt engC2 n "pay" 5 = .ok [])) ∧
    search engC2 "pay" 5 =
      keyword_search engC2.table_names engC2.table_data "pay" 5 :=
  ⟨Or.inl rfl, search_degraded_eq_keyword engC2 "pay" 5 (Or.inl rfl)⟩

theorem buildHits_ok (names data : List String)
    (hlen : names.length ≤ data.length) :
    ∀ nbrs, buildHits names data nbrs = .ok (vectorHitsSpec names data nbrs) := by
  intro nbrs
  induction nbrs with
  | nil => rfl
  | cons p rest ih =>
    obtain ⟨idx, sc⟩ := p
    by_cases hc : 0 ≤ idx ∧ idx < (names.length : Int) ∧ 0 < sc
    · have hidx : idx.toNat < data.length := by omega
      simp [buildHits, vectorHitsSpec, List.filterMap_cons, hc, pyGet, hidx,
        List.getD_eq_getElem data "" hidx, ih]
    · simp [buildHits, vectorHitsSpec, List.filterMap_cons, hc, ih]

theorem mem_vectorHitsSpec_pos {names data : List String}
    {nbrs : List (Int × ℚ)} {h : SearchHit}
    (hm : h ∈ vectorHitsSpec names data nbrs) : 0 < h.similarity_score := by
  unfold vectorHitsSpec at hm
  rw [List.mem_filterMap] at hm
  obtain ⟨p, _, hp⟩ := hm
  by_cases hc : 0 ≤ p.1 ∧ p.1 < (names.length : Int) ∧ 0 < p.2
  · rw [if_pos hc, Option.some_inj] at hp
    rw [← hp]
    exact hc.2.2
  · rw [if_neg hc] at hp
    exact absurd hp (by simp)

theorem mem_sortHits_iff (rs : List SearchHit) (h : SearchHit) :
    h ∈ sortHits rs ↔ h ∈ rs :=
  (List.perm_insertionSort _ rs).mem_iff

theorem sortHits_pairwise (rs : List SearchHit) :
    (sortHits rs).Pairwise
      (fun a b => b.similarity_score ≤ a.similarity_score) := by
  have h1 : IsTotal SearchHit
      (fun a b => b.similarity_score ≤ a.similarity_score) :=
    ⟨fun a b => le_total _ _⟩
  have h2 : IsTrans SearchHit
      (fun a b => b.similarity_score ≤ a.similarity_score) :=
    ⟨fun a b c hab hbc => le_trans hbc hab⟩
  exact List.sorted_insertionSort _ rs

/-- C4: on the vector path, the hits returned by `search` are exactly the
neighbors with a non-negative in-bounds index and a strictly positive
score, mapped to the catalog entry at that index and sorted by similarity
score descending; failing neighbors are silently dropped and no
non-positive-score neighbor ever appears in the result. -/
theorem search_vector_path_spec (e : Engine) (n : Nat)
    (nbrs : List (Int × ℚ)) (q : String) (k : Int)
    (hidx : e.index = some n) (hn : 0 < n)
    (hq : e.vecQuery q (min k (n : Int)) = .ok nbrs)
    (hlen : e.table_names.length ≤ e.table_data.length)
    (hne : vectorHitsSpec e.table_names e.table_data nbrs ≠ []) :
    search e q k = sortHits (vectorHitsSpec e.table_names e.table_data nbrs) ∧
    (∀ h ∈ search e q k, 0 < h.similarity_score) ∧
    (search e q k).Pairwise
      (fun a b => b.similarity_score ≤ a.similarity_score) := by
  have hva : vecAttempt e n q k =
      .ok (vectorHitsSpec e.table_names e.table_data nbrs) := by
    unfold vecAttempt
    rw [hq]
    exact buildHits_ok _ _ hlen nbrs
  have hemp : (sortHits (vectorHitsSpec e.table_names e.table_data nbrs)).isEmpty = false := by
    rw [List.isEmpty_eq_false_iff_exists_mem]
    obtain ⟨h, hm⟩ := List.exists_mem_of_ne_nil _ hne
    exact ⟨h, (mem_sortHits_iff _ _).mpr hm⟩
  have hsearch : search e q k =
      sortHits (vectorHitsSpec e.table_names e.table_data nbrs) := by
    unfold search
    rw [hidx]
    simp [hn, hva, hemp]
  refine ⟨hsearch, ?_, ?_⟩
  · intro h hm
    rw [hsearch, mem_sortHits_iff] at hm
    exact mem_vectorHitsSpec_pos hm
  · rw [hsearch]
    exact sortHits_pairwise _

/-- The neighbor list used to exercise the vector path in the C4 witness:
one in-bounds positive neighbor per table, one negative index, one
out-of-bounds index, one non-positive score. -/
def nbrsC4 : List (Int × ℚ) := [(0, 1), (1, 2), (-1, 9), (5, 3), (0, -4)]

/-- A `VectorSearch` state with a two-table catalog and a live index. -/
def engC4 : Engine :=
  ⟨["USERS", "ORDERS"], ["dU", "dO"], some 2, fun _ _ => .ok nbrsC4⟩

theorem search_vector_path_spec_witness :
    engC4.index = some 2 ∧ 0 < 2 ∧
    engC4.vecQuery "q" (min 5 ((2 : Nat) : Int)) = .ok nbrsC4 ∧
    engC4.table_names.length ≤ engC4.table_data.length ∧
    vectorHitsSpec engC4.table_names engC4.table_data nbrsC4 ≠ [] ∧
    (search engC4 "q" 5 =
        sortHits (vectorHitsSpec engC4.table_names engC4.table_data nbrsC4) ∧
      (∀ h ∈ search engC4 "q" 5, 0 < h.similarity_score) ∧
      (search engC4 "q" 5).Pairwise
        (fun a b => b.similarity_score ≤ a.similarity_score)) :=
  ⟨rfl, by decide, rfl, by decide, by decide,
    search_vector_path_spec engC4 2 nbrsC4 "q" 5 rfl (by decide) rfl
      (by decide) (by decide)⟩

theorem length_sortHits (rs : List SearchHit) :
    (sortHits rs).length = rs.length :=
  (List.perm_insertionSort _ rs).length_eq

theorem keyword_search_length_le (names data : List String) (q : String)
    (k : Int) (hk : 0 ≤ k) :
    ((keyword_search names data q k).length : Int) ≤ k := by
  unfold keyword_search pySlice
  rw [if_pos hk]
  have h := List.length_take_le k.toNat (sortHits (kwLoop data (pyLower q) 0 names))
  omega

theorem buildHits_length_le (names data : List String) :
    ∀ (nbrs : List (Int × ℚ)) (hs : List SearchHit),
      buildHits names data nbrs = .ok hs → hs.length ≤ nbrs.length := by
  intro nbrs
  induction nbrs with
  | nil =>
    intro hs h
    simp only [buildHits, Except.ok.injEq] at h
    simp [← h]
  | cons p rest ih =>
    intro hs h
    obtain ⟨idx, sc⟩ := p
    by_cases hc : 0 ≤ idx ∧ idx < (names.length : Int) ∧ 0 < sc
    · simp only [buildHits, if_pos hc] at h
      cases hpg : pyGet data idx.toNat with
      | error u => rw [hpg] at h; exact absurd h (by simp)
      | ok desc =>
        rw [hpg] at h
        cases hbh : buildHits names data rest with
        | error u => rw [hbh] at h; exact absurd h (by simp)
        | ok hs' =>
          rw [hbh] at h
          rw [Except.ok.injEq] at h
          have := ih hs' hbh
          simp [← h]
          omega
    · simp only [buildHits, if_neg hc] at h
      have := ih hs h
      simp only [List.length_cons]
      omega

/-- Case analysis on `search`: the result is either the keyword fallback or
the sorted vector hits of a successful, non-degraded vector attempt. -/
theorem search_cases (e : Engine) (q : String) (k : Int) :
    search e q k = keyword_search e.table_names e.table_data q k ∨
    ∃ n hits, e.index = some n ∧ 0 < n ∧ vecAttempt e n q k = .ok hits ∧
      search e q k = sortHits hits := by
  unfold search
  cases hi : e.index with
  | none => exact Or.inl rfl
  | some n =>
    by_cases hn : 0 < n
    · cases hva : vecAttempt e n q k with
      | error u => simp [hn, hva]
      | ok hits =>
        by_cases hemp : (sortHits hits).isEmpty
        · simp [hn, hva, hemp]
        · simp only [hn, if_pos, hva, hemp, Bool.false_eq_true, if_neg,
            not_false_eq_true]
          exact Or.inr ⟨n, hits, rfl, hn, hva, by simp [hemp]⟩
    · simp [hn]

/-- C5(amended): for every non-negative `topK` the result of `search` has
at most `topK` hits (under the FAISS contract that the index returns at
most `max(k', 0)` neighbors when asked for `k'`), and `topK = 0` yields an
empty result. For negative `topK` the original claim fails: the Python
slice `results[:top_k]` drops the last `|topK|` matches instead of
returning nothing (see the counterexample). -/
theorem search_topk_bound_amended (e : Engine) (q : String) (k : Int)
    (hfaiss : ∀ (kq : Int) (nbrs : List (Int × ℚ)),
      e.vecQuery q kq = .ok nbrs → (nbrs.length : Int) ≤ max kq 0)
    (hk : 0 ≤ k) :
    ((search e q k).length : Int) ≤ k ∧ (k = 0 → search e q k = []) := by
  have hcb : ∀ (n : Nat) (hits : List SearchHit), vecAttempt e n q k = .ok hits →
      (hits.length : Int) ≤ k := by
    intro n hits hva
    unfold vecAttempt at hva
    cases hq : e.vecQuery q (min k (n : Int)) with
    | error u => rw [hq] at hva; exact absurd hva (by simp)
    | ok nbrs =>
      rw [hq] at hva
      have h1 := buildHits_length_le e.table_names e.table_data nbrs hits hva
      have h2 := hfaiss _ nbrs hq
      omega
  constructor
  · rcases search_cases e q k with h | ⟨n, hits, _, _, hva, hs⟩
    · rw [h]
      exact keyword_search_length_le _ _ _ _ hk
    · rw [hs]
      have := hcb n hits hva
      rw [length_sortHits]
      omega
  · intro hk0
    subst hk0
    rcases search_cases e q 0 with h | ⟨n, hits, _, _, hva, hs⟩
    · rw [h]
      simp [keyword_search, pySlice]
    · have hle := hcb n hits hva
      have : hits = [] := by
        rw [← List.length_eq_zero]
        omega
      rw [hs, this]
      rfl

/-- A two-table engine with no index, used to refute the original C5 and
to witness the amended C5. -/
def engC5 : Engine := ⟨["A", "B"], ["a", "b"], none, fun _ _ => .ok []⟩

/-- Counterexample to C5 as stated: with `topK = -1` and an empty query,
the keyword fallback matches both tables and the Python slice
`results[:-1]` returns one hit, not zero, violating
`len(search(query, k)) <= max(k, 0)`. -/
theorem search_topk_bound_refuted :
    ¬ (((search engC5 "" (-1)).length : Int) ≤ max (-1 : Int) 0) := by decide

theorem search_topk_bound_amended_witness :
    (0 : Int) ≤ 3 ∧
    ((search engC5 "x" 3).length : Int) ≤ 3 ∧
    ((3 : Int) = 0 → search engC5 "x" 3 = []) :=
  ⟨by decide,
    search_topk_bound_amended engC5 "x" 3
      (by
        intro kq nbrs h
        simp only [engC5, Except.ok.injEq] at h
        subst h
        simp)
      (by decide)⟩

theorem kwRow_empty (data : List String) (i : Nat) (name : String) :
    kwRow data "" i name =
      some ⟨name, ((10 : Nat) : ℚ),
        if i < data.length then data.getD i "" else "Table " ++ name⟩ := by
  have hsub : substr "" (pyLower name) = true := by
    simp [substr]
  have hwords : pyWords "" = [] := rfl
  by_cases h : i < data.length <;>
    simp [kwRow, h, hsub, hwords]

theorem kwLoop_empty_length (data : List String) :
    ∀ (names : List String) (i : Nat),
      (kwLoop data "" i names).length = names.length := by
  intro names
  induction names with
  | nil => intro i; rfl
  | cons name rest ih =>
    intro i
    simp [kwLoop, kwRow_empty, ih]

theorem kwLoop_empty_score (data : List String) :
    ∀ (names : List String) (i : Nat) (h : SearchHit),
      h ∈ kwLoop data "" i names → h.similarity_score = ((10 : Nat) : ℚ) := by
  intro names
  induction names with
  | nil => intro i h hm; simp [kwLoop] at hm
  | cons name rest ih =>
    intro i h hm
    simp only [kwLoop, kwRow_empty] at hm
    rcases List.mem_cons.mp hm with h1 | h2
    · rw [h1]
    · exact ih _ _ h2

/-- C10: on the empty query the keyword fallback scores every table at
least 10 (the empty lowered query is a substring of every lowered table
name), so whenever the fallback runs with `topK ≥ 1` on a non-empty
catalog, `search` returns `min(topK, number of tables)` hits — never zero
hits — all with similarity score at least 10. -/
theorem search_empty_query_fallback (e : Engine) (k : Int)
    (hfb : e.index = none ∨ e.index = some 0 ∨
      (∃ n, e.index = some n ∧ vecAttempt e n "" k = .error ()) ∨
      (∃ n, e.index = some n ∧ vecAttempt e n "" k = .ok []))
    (hk : 1 ≤ k) (hne : e.table_names ≠ []) :
    (search e "" k).length = min k.toNat e.table_names.length ∧
    search e "" k ≠ [] ∧
    ∀ h ∈ search e "" k, (10 : ℚ) ≤ h.similarity_score := by
  have hkw := search_eq_keyword_of_degraded e "" k hfb
  have hql : pyLower "" = "" := rfl
  rw [hkw]
  unfold keyword_search pySlice
  rw [hql, if_pos (by omega : (0 : Int) ≤ k)]
  have hlen : (List.take k.toNat
      (sortHits (kwLoop e.table_data "" 0 e.table_names))).length =
      min k.toNat e.table_names.length := by
    rw [List.length_take, length_sortHits, kwLoop_empty_length]
  refine ⟨hlen, ?_, ?_⟩
  · rw [← List.length_pos, hlen]
    have h1 : 1 ≤ k.toNat := by omega
    have h2 : 0 < e.table_names.length := List.length_pos.mpr hne
    omega
  · intro h hm
    have hm1 : h ∈ sortHits (kwLoop e.table_data "" 0 e.table_names) :=
      List.take_subset _ _ hm
    have hm2 : h ∈ kwLoop e.table_data "" 0 e.table_names :=
      (mem_sortHits_iff _ _).mp hm1
    have := kwLoop_empty_score e.table_data e.table_names 0 h hm2
    rw [this]
    norm_num

/-- A one-table engine with no index, for the C10 witness. -/
def engC10 : Engine :=
  ⟨["CUSTOMERS"], ["Table CUSTOMERS with columns: "], none, fun _ _ => .ok []⟩

theorem search_empty_query_fallback_witness :
    (engC10.index = none ∨ engC10.index = some 0 ∨
      (∃ n, engC10.index = some n ∧ vecAttempt engC10 n "" 1 = .error ()) ∨
      (∃ n, engC10.index = some n ∧ vecAttempt engC10 n "" 1 = .ok [])) ∧
    (1 : Int) ≤ 1 ∧ engC10.table_names ≠ [] ∧
    ((search engC10 "" 1).length =
        min (1 : Int).toNat engC10.table_names.length ∧
      search engC10 "" 1 ≠ [] ∧
      ∀ h ∈ search engC10 "" 1, (10 : ℚ) ≤ h.similarity_score) :=
  ⟨Or.inl rfl, by decide, by decide,
    search_empty_query_fallback engC10 1 (Or.inl rfl) (by decide) (by decide)⟩

/-- C6: building the catalog renders, for each table, one line per column
in the metadata's given order as `"<column_name> (<data_type>,
NULL|NOT NULL)"` (NULL exactly for flag `'Y'`), joined with `", "` into
`"Table <name> with columns: ..."`, with `table_names` and `table_texts`
index-aligned. -/
theorem buildSnapshot_eq_spec (schema : RawSchema) :
    buildSnapshot schema = snapshotSpec schema := by
  rw [buildSnapshot_eq]
  unfold snapshotSpec tableText columnLine
  rfl

theorem is_index_valid_iff (d : Disk) (names data : List String) :
    is_index_valid d names data = true ↔
      ∃ n en ed, d.indexFile = some n ∧ d.namesFile = some en ∧
        d.descFile = some ed ∧ en.length = names.length ∧
        setEq en names = true ∧ ed = data ∧ n = names.length := by
  cases hi : d.indexFile with
  | none => simp [is_index_valid, hi]
  | some n =>
    cases hn : d.namesFile with
    | none => simp [is_index_valid, hi, hn]
    | some en =>
      cases hd : d.descFile with
      | none => simp [is_index_valid, hi, hn, hd]
      | some ed =>
        by_cases h1 : en.length = names.length
        · by_cases h2 : setEq en names = true
          · by_cases h3 : ed = data
            · simp [is_index_valid, hi, hn, hd, h1, h2, h3]
            · simp [is_index_valid, hi, hn, hd, h1, h2, h3]
          · simp [is_index_valid, hi, hn, hd, h1, h2]
        · simp [is_index_valid, hi, hn, hd, h1]

/-- C1(amended): the validity check returns true iff the index file and
both sidecars exist and are readable, the persisted names are set-equal to
**and have the same length as** the candidate's names, the persisted
descriptions equal the candidate's element-for-element, and the loaded
index's vector count equals the candidate's table count; any read failure
or mismatch yields false (the `Option`-valued disk fields model every read
or deserialization failure, so no exception escapes). The original claim
omitted the length condition; see the counterexample. -/
theorem is_index_valid_characterization (d : Disk) (names data : List String) :
    is_index_valid d names data = true ↔
      ∃ n en ed, d.indexFile = some n ∧ d.namesFile = some en ∧
        d.descFile = some ed ∧ en.length = names.length ∧
        setEq en names = true ∧ ed = data ∧ n = names.length :=
  is_index_valid_iff d names data

/-- A disk whose persisted name list carries a duplicate. -/
def dC1 : Disk := ⟨some 1, some ["A", "A"], some ["tA"]⟩

/-- Counterexample to C1 as stated: persisted names `["A", "A"]` are
set-equal to the candidate's `["A"]`, the persisted descriptions and the
vector count match, and all three files are readable — every condition of
the claim holds — yet `_is_index_valid` returns `False`, because the code
also compares `len(existing_names)` with `len(self.table_names)`. -/
theorem is_index_valid_set_only_refuted :
    indexValidSpec dC1 ["A"] ["tA"] = true ∧
    is_index_valid dC1 ["A"] ["tA"] = false := by decide

theorem setEq_refl (a : List String) : setEq a a = true := by
  simp only [setEq, Bool.and_self, List.all_eq_true]
  intro x hx
  simpa using hx

theorem load_rebuilt_false_of_valid (schema : RawSchema) (d : Disk)
    (hv : is_index_valid d (buildSnapshot schema).1 (buildSnapshot schema).2 =
      true) :
    (load_schema_data schema d).rebuilt = false ∧
    (load_schema_data schema d).index = d.indexFile := by
  simp [load_schema_data, hv]

theorem load_post_valid (schema : RawSchema) (d : Disk) (hne : schema ≠ []) :
    is_index_valid (load_schema_data schema d).disk
      (buildSnapshot schema).1 (buildSnapshot schema).2 = true := by
  have hlen : (buildSnapshot schema).2.length = (buildSnapshot schema).1.length := by
    rw [buildSnapshot_snd_length, buildSnapshot_fst_length]
  have hdata : (buildSnapshot schema).2 ≠ [] := by
    intro h
    apply hne
    have h2 := buildSnapshot_snd_length schema
    rw [h] at h2
    exact List.length_eq_zero.mp h2.symm
  by_cases hv : is_index_valid d (buildSnapshot schema).1 (buildSnapshot schema).2 = true
  · obtain ⟨n, en, ed, hi, hnm, hdsc, h1, h2, h3, h4⟩ :=
      (is_index_valid_iff d _ _).mp hv
    have hd : (load_schema_data schema d).disk =
        { d with namesFile := some (buildSnapshot schema).1,
                 descFile := some (buildSnapshot schema).2 } := by
      simp [load_schema_data, hv]
    rw [hd]
    exact (is_index_valid_iff _ _ _).mpr
      ⟨n, (buildSnapshot schema).1, (buildSnapshot schema).2, hi, rfl, rfl,
        rfl, setEq_refl _, rfl, h4⟩
  · have hd : (load_schema_data schema d).disk =
        { indexFile := some (buildSnapshot schema).2.length,
          namesFile := some (buildSnapshot schema).1,
          descFile := some (buildSnapshot schema).2 } := by
      simp [load_schema_data, hv, hdata]
    rw [hd]
    exact (is_index_valid_iff _ _ _).mpr
      ⟨(buildSnapshot schema).2.length, (buildSnapshot schema).1,
        (buildSnapshot schema).2, rfl, rfl, rfl, rfl, setEq_refl _, rfl, hlen⟩

/-- C7(amended): if the validity check succeeds for the current snapshot,
`load_schema_data` reloads the on-disk index as-is (no rebuild, hence no
re-embedding); and for a **non-empty** schema, a repeated invocation with
the same snapshot always takes the reload branch. For the empty schema the
original claim fails: `build_index` returns without writing the index
file, so every repeated call takes the rebuild branch again (which embeds
nothing) — see the counterexample. -/
theorem load_idempotent_amended (schema : RawSchema) (d : Disk)
    (hne : schema ≠ []) :
    (is_index_valid d (buildSnapshot schema).1 (buildSnapshot schema).2 = true →
      (load_schema_data schema d).rebuilt = false ∧
      (load_schema_data schema d).index = d.indexFile) ∧
    (load_schema_data schema (load_schema_data schema d).disk).rebuilt =
      false :=
  ⟨fun hv => load_rebuilt_false_of_valid schema d hv,
    (load_rebuilt_false_of_valid schema _ (load_post_valid schema d hne)).1⟩

/-- An empty disk: no index file, no sidecars. -/
def d0 : Disk := ⟨none, none, none⟩

/-- Counterexample to C7 as stated: with an empty schema and an initially
empty disk, the second invocation of `load_schema_data` takes the rebuild
branch again (the empty-catalog `build_index` never writes an index file,
so the validity check keeps failing). -/
theorem load_idempotent_refuted :
    (load_schema_data [] (load_schema_data [] d0).disk).rebuilt = true := by
  decide

/-- A one-table schema for the C7 witness. -/
def schemaC7 : RawSchema := [("USERS", [⟨"id", "NUMBER", "N"⟩])]

theorem load_idempotent_amended_witness :
    schemaC7 ≠ [] ∧
    ((is_index_valid d0 (buildSnapshot schemaC7).1 (buildSnapshot schemaC7).2 =
        true →
      (load_schema_data schemaC7 d0).rebuilt = false ∧
      (load_schema_data schemaC7 d0).index = d0.indexFile) ∧
    (load_schema_data schemaC7 (load_schema_data schemaC7 d0).disk).rebuilt =
      false) :=
  ⟨by decide, load_idempotent_amended schemaC7 d0 (by decide)⟩

/-- A disk holding the artifacts of an earlier, different catalog: an index
file with 5 vectors and matching-era sidecars. -/
def dStale : Disk := ⟨some 5, some ["X"], some ["Table X with columns: "]⟩

/-- C8 (code bug): loading an **empty** catalog rewrites both sidecar files
to `[]` but leaves the pre-existing index file untouched (the empty-catalog
branch of `build_index` returns before `faiss.write_index`), so after the
load a reader observes fresh sidecars next to a stale 5-vector index — the
three artifacts were not written together or left together untouched. -/
theorem load_empty_catalog_stale_index :
    (load_schema_data [] dStale).disk.namesFile = some [] ∧
    (load_schema_data [] dStale).disk.descFile = some [] ∧
    (load_schema_data [] dStale).disk.indexFile = some 5 ∧
    ¬ diskMatches (load_schema_data [] dStale).disk [] [] := by decide
